import Mathlib

/-!
# goexiftool: a verification development

A shallow embedding of `goexiftool.go` (package `goexiftool`) and the proofs of
its specified properties.

Conventions of the embedding.

* A Go `string` is modelled as the list of its Unicode code points
  (`GoString := List Char`); the external tool emits UTF-8 text, and the only
  separator bytes the program looks for (`:` and `/`) are ASCII, so splitting
  on bytes and on code points agree.
* A Go `map[string]string` that has been allocated with `make` is modelled as
  a partial function from keys to values (`Info`).
* Go's multiple return values `(value, err error)` are modelled as pairs whose
  second component is `Option GoString`: `none` is the `nil` error, `some msg`
  is `errors.New(msg)`.
-/

set_option maxRecDepth 4000

namespace Goexiftool

/-- A Go string, as the sequence of its code points. -/
abbrev GoString := List Char

/-! ## Package `strings` and `unicode` -/

/-- Go `unicode.IsSpace`: the Latin-1 cases of the switch, then the
`White_Space` range table for the code points above Latin-1. -/
def IsSpace (r : Char) : Bool :=
  let n := r.toNat
  if n ≤ 0xFF then
    n = 0x09 || n = 0x0A || n = 0x0B || n = 0x0C || n = 0x0D || n = 0x20
      || n = 0x85 || n = 0xA0
  else
    n = 0x1680 || (0x2000 ≤ n && n ≤ 0x200A) || n = 0x2028 || n = 0x2029
      || n = 0x202F || n = 0x205F || n = 0x3000

/-- Go `strings.TrimLeftFunc(s, unicode.IsSpace)`. -/
def TrimLeftSpace (s : GoString) : GoString :=
  s.dropWhile IsSpace

/-- Go `strings.TrimRightFunc(s, unicode.IsSpace)`. -/
def TrimRightSpace (s : GoString) : GoString :=
  (s.reverse.dropWhile IsSpace).reverse

/-- Go `strings.TrimSpace`: `TrimRightFunc(TrimLeftFunc(s, IsSpace), IsSpace)`. -/
def TrimSpace (s : GoString) : GoString :=
  TrimRightSpace (TrimLeftSpace s)

/-- Go `strings.Index(s, ":")` for the one-byte separator: the position of the
first occurrence, `none` standing for `-1`. -/
def IndexColon : GoString → Option Nat
  | [] => none
  | c :: cs => if c = ':' then some 0 else (IndexColon cs).map (· + 1)

/-- Go `strings.SplitN(s, ":", 2)` (`genSplit(s, ":", 0, 2)`): the count is
capped at `len(s)+1`, the loop cuts at most once, at the first separator. -/
def SplitN2 (s : GoString) : List GoString :=
  let n := if 2 > s.length + 1 then s.length + 1 else 2
  if n - 1 = 0 then [s]
  else
    match IndexColon s with
    | none => [s]
    | some m => [s.take m, s.drop (m + 1)]

/-! ## The record and its mapping -/

/-- The allocated `map[string]string` of a `MediaFile`. -/
abbrev Info := GoString → Option GoString

/-- The map `make(map[string]string)`. -/
def Info.empty : Info := fun _ => none

/-- Go `m[key] = value`. -/
def Info.set (m : Info) (key value : GoString) : Info :=
  fun k => if k = key then some value else m k

/-- Go `v, ok := m[key]`: the zero value `""` and `false` when absent. -/
def Info.lookup (m : Info) (key : GoString) : GoString × Bool :=
  match m key with
  | some v => (v, true)
  | none => ([], false)

/-- The body of the scanner loop of `AnalyzeMetadata` for one `scanner.Text()`. -/
def processLine (m : Info) (text : GoString) : Info :=
  let res := SplitN2 text
  if res.length > 1 then
    let key := TrimSpace (res.getD 0 [])
    let value := TrimSpace (res.getD 1 [])
    m.set key value
  else m

/-- Go `len(s)`: the number of bytes of the UTF-8 text. -/
def byteLen : GoString → Nat
  | [] => 0
  | c :: cs => c.utf8Size + byteLen cs

/-- Go `bufio.MaxScanTokenSize`, the size the buffer of a scanner made by
`bufio.NewScanner` cannot exceed. -/
def MaxScanTokenSize : Nat := 64 * 1024

/-- Go `dropCR` of `bufio.ScanLines`: one closing carriage return is dropped. -/
def dropCR (data : GoString) : GoString :=
  if data.getLast? = some '\r' then data.dropLast else data

/-- One `scanner.Scan()` followed by `scanner.Text()` on the next line of the
output (the line without its newline): `none` when `Scan` returns false,
which it does, with `ErrTooLong`, when the full buffer of `MaxScanTokenSize`
bytes holds no newline, that is when the line has that many bytes or more. -/
def scanText (line : GoString) : Option GoString :=
  if MaxScanTokenSize ≤ byteLen line then none else some (dropCR line)

/-- The scanner loop of `AnalyzeMetadata` over the lines of the standard
output: it runs the body on each line in turn and ends for good at the end of
the output or at the first line `Scan` refuses; `scanner.Err()` is not read. -/
def parseLines (m : Info) : List GoString → Info
  | [] => m
  | line :: rest =>
    match scanText line with
    | none => m
    | some text => parseLines (processLine m text) rest

/-- The Go `error` values the program handles: `errors.New(text)`, and the
errors handed back by the operating system (`os.Stat`, `os/exec`), of which the
program only ever inspects `os.IsNotExist`. -/
inductive GoError where
  | New (text : GoString)
  | os (isNotExist : Bool) (code : Nat)
  deriving DecidableEq, Repr

/-- The record `MediaFile`; `Info` is the allocated map. -/
structure MediaFile where
  Filename : GoString
  Info : Info

/-! ## Accessors -/

/-- Go `(m *MediaFile) Get`. -/
def Get (m : MediaFile) (tagLabel : GoString) : GoString × Option GoError :=
  let (tagValue, ok) := m.Info.lookup tagLabel
  if !ok then (tagValue, some (GoError.New ("Unknown tag ".toList ++ tagLabel)))
  else (tagValue, none)

/-- Go `(m *MediaFile) GetLens`. -/
def GetLens (m : MediaFile) : GoString × Option GoError :=
  let (lens, ok) := m.Info.lookup "Lens ID".toList
  if !ok then (lens, some (GoError.New "Unknown exiftool value : Lens ID".toList))
  else (lens, none)

/-- Go `(m *MediaFile) GetCamera`. -/
def GetCamera (m : MediaFile) : GoString × Option GoError :=
  let (camera, ok) := m.Info.lookup "Camera Model Name".toList
  if !ok then
    (camera, some (GoError.New "Unknown exiftool value : Camera Model Name".toList))
  else (camera, none)

/-- Go `(m *MediaFile) IsGeoTagged`. -/
def IsGeoTagged (m : MediaFile) : Bool :=
  (m.Info.lookup "GPS Position".toList).2

/-! ## Package `time`: `time.Parse` on the three layouts of `GetDate`

The model follows `parse` in `time/format.go`. A layout is kept in the form
`nextStdChunk` cuts it into: the successive (literal prefix, standard element)
pairs. Only success or failure of `time.Parse` is observed by `GetDate`, and a
successful parse consumes ASCII bytes only, so that indexing by code point and
by byte agree on every accepted text. -/

/-- The instant a parse yields: the civil fields handed to `time.Date`, and the
offset in seconds east of UTC of the location the result is set in. -/
structure Time where
  year : Int
  month : Int
  day : Int
  hour : Int
  min : Int
  sec : Int
  nsec : Int
  offset : Int
  deriving DecidableEq, Repr

/-- The zero `Time{}`: January 1, year 1, 00:00:00 UTC. -/
def Time.zero : Time := ⟨1, 1, 1, 0, 0, 0, 0, 0⟩

/-- The standard layout elements occurring in the three layouts. -/
inductive Std where
  | stdLongYear
  | stdZeroMonth
  | stdZeroDay
  | stdHour
  | stdZeroMinute
  | stdZeroSecond
  | stdFracSecond0 (digits : Nat)
  | stdNumColonTZ
  deriving DecidableEq, Repr

/-- A layout as cut by `nextStdChunk`: the chunks, then the closing literal. -/
structure Layout where
  chunks : List (GoString × Std)
  rest : GoString

/-- The layout `"2006:01:02 15:04:05"`. -/
def layoutSeconds : Layout :=
  ⟨[([], .stdLongYear), ([':'], .stdZeroMonth), ([':'], .stdZeroDay),
    ([' '], .stdHour), ([':'], .stdZeroMinute), ([':'], .stdZeroSecond)], []⟩

/-- The layout `"2006:01:02 15:04:05.00"`. -/
def layoutCentis : Layout :=
  ⟨layoutSeconds.chunks ++ [([], .stdFracSecond0 2)], []⟩

/-- The layout `"2006:01:02 15:04:05.000000-07:00"`. -/
def layoutMicrosZone : Layout :=
  ⟨layoutSeconds.chunks ++ [([], .stdFracSecond0 6), ([], .stdNumColonTZ)], []⟩

/-- Go `isDigit(s, i)` of package `time`. -/
def isDigit (s : GoString) (i : Nat) : Bool :=
  match s.get? i with
  | some c => '0' ≤ c && c ≤ '9'
  | none => false

/-- The value `c - '0'` of a digit. -/
def digitVal (c : Char) : Nat := c.toNat - '0'.toNat

/-- Go `commaOrPeriod`. -/
def commaOrPeriod (c : Char) : Bool := c = '.' || c = ','

/-- Go `cutspace`: drop the leading blanks. -/
def cutspace (s : GoString) : GoString := s.dropWhile (· = ' ')

/-- Go `skip(value, prefix)`: `none` is `errBad`. A blank of the prefix stands
for any run of blanks of the value, a run that may be empty only at its end. -/
def skip : Nat → GoString → GoString → Option GoString
  | _, value, [] => some value
  | 0, _, _ :: _ => none
  | fuel + 1, value, p :: ps =>
    if p = ' ' then
      match value with
      | v :: _ =>
        if v ≠ ' ' then none
        else skip fuel (cutspace value) (cutspace (p :: ps))
      | [] => skip fuel (cutspace value) (cutspace (p :: ps))
    else
      match value with
      | [] => none
      | v :: vs => if v ≠ p then none else skip fuel vs ps

/-- Go `getnum(s, fixed)`: one or two digits, two when `fixed`. -/
def getnum (s : GoString) (fixed : Bool) : Option (Int × GoString) :=
  if !isDigit s 0 then none
  else if !isDigit s 1 then
    if fixed then none
    else some ((digitVal (s.getD 0 '0') : Int), s.drop 1)
  else
    some ((digitVal (s.getD 0 '0') * 10 + digitVal (s.getD 1 '0') : Nat), s.drop 2)

/-- Go `leadingInt`: the leading decimal number as a `uint64` and the rest;
`none` is `errLeadingInt` (overflow). -/
def leadingInt : GoString → Nat → Option (Nat × GoString)
  | [], x => some (x, [])
  | c :: cs, x =>
    if c < '0' || c > '9' then some (x, c :: cs)
    else if x > 2 ^ 63 / 10 then none
    else
      let x1 := x * 10 + digitVal c
      if x1 > 2 ^ 63 then none else leadingInt cs x1

/-- Go `atoi` of package `time`: an optional sign, then digits to the end. -/
def atoi (s : GoString) : Option Int :=
  let neg := decide (s.head? = some '-')
  let s1 := if s.head? = some '-' || s.head? = some '+' then s.drop 1 else s
  match leadingInt s1 0 with
  | none => none
  | some (q, rem) =>
    if rem.length > 0 then none
    else
      let x : Int := if q < 2 ^ 63 then (q : Int) else (q : Int) - 2 ^ 64
      some (if neg then -x else x)

/-- Go `parseNanoseconds(value, nbytes)`: `none` covers both `errBad` and the
range error. -/
def parseNanoseconds (value : GoString) (nbytes : Nat) : Option Int :=
  match value.head? with
  | none => none
  | some c =>
    if !commaOrPeriod c then none
    else
      let nb := if nbytes > 10 then 10 else nbytes
      let v := if nbytes > 10 then value.take 10 else value
      match atoi ((v.take nb).drop 1) with
      | none => none
      | some ns => if ns < 0 then none else some (ns * 10 ^ (10 - nb))

/-- The variables of `parse` that the three layouts can assign. -/
structure Fields where
  year : Int := 0
  month : Int := -1
  day : Int := -1
  hour : Int := 0
  min : Int := 0
  sec : Int := 0
  nsec : Int := 0
  zoneOffset : Int := -1
  deriving DecidableEq, Repr

/-- One case of the `switch std & stdMask` of `parse`, with the two checks
that close the iteration; `next` is what `nextStdChunk` finds in the layout
that remains. `none` is the returned `ParseError`. -/
def parseStd (std : Std) (next : Option Std) (f : Fields) (value : GoString) :
    Option (Fields × GoString) :=
  match std with
  | .stdLongYear =>
    if value.length < 4 || !isDigit value 0 then none
    else
      match atoi (value.take 4) with
      | none => none
      | some y => some ({ f with year := y }, value.drop 4)
  | .stdZeroMonth =>
    match getnum value true with
    | none => none
    | some (month, v) =>
      if month ≤ 0 || 12 < month then none else some ({ f with month := month }, v)
  | .stdZeroDay =>
    match getnum value true with
    | none => none
    | some (day, v) => some ({ f with day := day }, v)
  | .stdHour =>
    match getnum value false with
    | none => none
    | some (hour, v) =>
      if hour < 0 || 24 ≤ hour then none else some ({ f with hour := hour }, v)
  | .stdZeroMinute =>
    match getnum value true with
    | none => none
    | some (min, v) =>
      if min < 0 || 60 ≤ min then none else some ({ f with min := min }, v)
  | .stdZeroSecond =>
    match getnum value true with
    | none => none
    | some (sec, v) =>
      if sec < 0 || 60 ≤ sec then none
      else if v.length ≥ 2 && commaOrPeriod (v.getD 0 ' ') && isDigit v 1 then
        match next with
        | some (.stdFracSecond0 _) => some ({ f with sec := sec }, v)
        | _ =>
          let n := 1 + ((v.drop 1).takeWhile (fun c => '0' ≤ c && c ≤ '9')).length
          match parseNanoseconds v n with
          | none => none
          | some nsec => some ({ f with sec := sec, nsec := nsec }, v.drop n)
      else some ({ f with sec := sec }, v)
  | .stdFracSecond0 digits =>
    let ndigit := 1 + digits
    if value.length < ndigit then none
    else
      match parseNanoseconds value ndigit with
      | none => none
      | some nsec => some ({ f with nsec := nsec }, value.drop ndigit)
  | .stdNumColonTZ =>
    if value.length < 6 then none
    else if value.getD 3 ' ' ≠ ':' then none
    else
      let sign := value.getD 0 ' '
      let hour := (value.take 3).drop 1
      let min := (value.take 6).drop 4
      match getnum hour true with
      | none => none
      | some (hr, _) =>
        match getnum min true with
        | none => none
        | some (mm, _) =>
          match getnum ['0', '0'] true with
          | none => none
          | some (ss, _) =>
            if hr > 24 || mm > 60 || ss > 60 then none
            else
              let zoneOffset := (hr * 60 + mm) * 60 + ss
              if sign = '+' then
                some ({ f with zoneOffset := zoneOffset }, value.drop 6)
              else if sign = '-' then
                some ({ f with zoneOffset := -zoneOffset }, value.drop 6)
              else none

/-- The loop of `parse`: skip the literal prefix, read the element, go on with
the rest of the layout; after the last element the closing literal is skipped
and nothing may remain of the value. -/
def parseLoop (rest : GoString) :
    List (GoString × Std) → Fields → GoString → Option Fields
  | [], f, value =>
    match skip (rest.length + 1) value rest with
    | none => none
    | some v => if v.length ≠ 0 then none else some f
  | (lit, std) :: more, f, value =>
    match skip (lit.length + 1) value lit with
    | none => none
    | some v =>
      match parseStd std (more.head?.map Prod.snd) f v with
      | none => none
      | some (f1, v1) => parseLoop rest more f1 v1

/-- Go `isLeap`. -/
def isLeap (year : Int) : Bool :=
  year % 4 = 0 && (year % 100 ≠ 0 || year % 400 = 0)

/-- Go `daysIn(Month(m), year)`. -/
def daysIn (m : Int) (year : Int) : Int :=
  if m = 2 then (if isLeap year then 29 else 28)
  else if m = 4 || m = 6 || m = 9 || m = 11 then 30
  else 31

/-- Go `time.Parse(layout, value)`: `none` is the `ParseError` (with which the
zero `Time` is returned). The fields being validated, `Date` has nothing to
normalise; a parsed offset fixes the location of the result, UTC otherwise. -/
def timeParse (layout : Layout) (value : GoString) : Option Time :=
  match parseLoop layout.rest layout.chunks {} value with
  | none => none
  | some f =>
    let month := if f.month < 0 then 1 else f.month
    let day := if f.day < 0 then 1 else f.day
    if day < 1 || day > daysIn month f.year then none
    else if f.zoneOffset ≠ -1 then
      some ⟨f.year, month, day, f.hour, f.min, f.sec, f.nsec, f.zoneOffset⟩
    else
      some ⟨f.year, month, day, f.hour, f.min, f.sec, f.nsec, 0⟩

/-- Go `(m *MediaFile) GetDate`. -/
def GetDate (m : MediaFile) : Time × Option GoError :=
  let (dateString, ok) := m.Info.lookup "Date/Time Original".toList
  let (dateString, ok) :=
    if !ok then m.Info.lookup "Create Date".toList else (dateString, ok)
  let (dateString, ok) :=
    if !ok then m.Info.lookup "Modify Date".toList else (dateString, ok)
  if !ok then
    (Time.zero, some (GoError.New
      "Couldn't find Date/Time Original or Create Date exif data".toList))
  else
    match timeParse layoutSeconds dateString with
    | some date => (date, none)
    | none =>
      match timeParse layoutCentis dateString with
      | some date => (date, none)
      | none =>
        match timeParse layoutMicrosZone dateString with
        | some date => (date, none)
        | none =>
          (Time.zero, some (GoError.New
            ("Date has unexpected format: ".toList ++ dateString)))

/-! ## Package `path/filepath` (Unix) -/

/-- Go `filepath.IsAbs` on Unix: `strings.HasPrefix(path, "/")`. -/
def IsAbs (path : GoString) : Bool :=
  path.head? = some '/'

/-- The backtracking of `Clean` at a `..` element, from `out.w--` on: go down
from `w` while above `dotdot` and not on a separator. -/
def backtrack (out : GoString) (dotdot : Nat) : Nat → Nat
  | 0 => 0
  | w + 1 =>
    if w + 1 > dotdot && out.getD (w + 1) '/' ≠ '/' then backtrack out dotdot w
    else w + 1

/-- The loop `for r < n` of `filepath.Clean`: what remains to read of the
path, the buffer `out` written so far (`out.w` is its length) and `dotdot`.
Every iteration reads at least one byte; `none` only when the fuel is used up
before the path is. -/
def cleanLoop (rooted : Bool) : Nat → GoString → GoString → Nat → Option GoString
  | _, [], out, _ => some out
  | 0, _ :: _, _, _ => none
  | fuel + 1, c :: rest, out, dotdot =>
    if c = '/' then
      cleanLoop rooted fuel rest out dotdot
    else if c = '.' && (rest.length = 0 || rest.head? = some '/') then
      cleanLoop rooted fuel rest out dotdot
    else if c = '.' && rest.head? = some '.'
        && ((rest.drop 1).length = 0 || (rest.drop 1).head? = some '/') then
      if out.length > dotdot then
        cleanLoop rooted fuel (rest.drop 1)
          (out.take (backtrack out dotdot (out.length - 1))) dotdot
      else if !rooted then
        let out1 := if out.length > 0 then out ++ ['/'] else out
        let out2 := out1 ++ ['.', '.']
        cleanLoop rooted fuel (rest.drop 1) out2 out2.length
      else
        cleanLoop rooted fuel (rest.drop 1) out dotdot
    else
      let out1 :=
        if (rooted && out.length ≠ 1) || (!rooted && out.length ≠ 0) then out ++ ['/']
        else out
      cleanLoop rooted fuel (rest.dropWhile (· ≠ '/'))
        (out1 ++ c :: rest.takeWhile (· ≠ '/')) dotdot

/-- Go `filepath.Clean` on Unix (no volume name, `FromSlash` the identity). -/
def Clean (path : GoString) : GoString :=
  if path.length = 0 then ['.']
  else
    let rooted := decide (path.head? = some '/')
    let start := if rooted then (path.drop 1, ['/'], 1) else (path, [], 0)
    match cleanLoop rooted start.1.length start.1 start.2.1 start.2.2 with
    | none => []
    | some out => if out.length = 0 then ['.'] else out

/-- Go `filepath.Join(a, b)`: from the first non-empty element on, the
elements are joined with the separator and the result is cleaned. -/
def Join (a b : GoString) : GoString :=
  if a ≠ [] then Clean (a ++ '/' :: b)
  else if b ≠ [] then Clean b
  else []

/-! ## The environment: file system, working directory, external tool -/

/-- What `cmd.Wait()` does: it returns an error or `nil` once the process has
exited, or it never returns. -/
inductive WaitResult where
  | exited (err : Option GoError)
  | never
  deriving DecidableEq, Repr

/-- What the program asks of the operating system. `Stat` and `Getwd` give
`none` on success of `os.Stat` (resp. the error of `os.Getwd`); `ExifTool` is
the package variable (`none` when `nil`, else the `Args` of the command);
`LookPath` is `exec.LookPath("exiftool")`; the remaining fields describe the
launched process: the errors of `StdoutPipe` and `Start`, the lines it writes
to its standard output, whether that output then ends (a process that stalls
with the pipe open keeps `Scan` waiting), and what `Wait` does, which depends
on whether the scanner has left output unread in the pipe. -/
structure Env where
  Getwd : Except GoError GoString
  Stat : GoString → Option GoError
  ExifTool : Option (List GoString)
  LookPath : Option GoString
  StdoutPipe : GoString → List GoString → Option GoError
  Start : GoString → List GoString → Option GoError
  Output : GoString → List GoString → List GoString
  OutputEnds : GoString → List GoString → Bool
  Wait : GoString → List GoString → Bool → WaitResult

/-- The calls the program makes to the outside, in order. -/
inductive Event where
  | getwd
  | stat (path : GoString)
  | lookPath
  | stdoutPipe (name : GoString) (args : List GoString)
  | start (name : GoString) (args : List GoString)
  | stderr
  | wait
  deriving DecidableEq, Repr

/-- A call returns, panics, or never returns. -/
inductive Outcome (α : Type) where
  | returned (a : α)
  | panicked
  | blocked
  deriving DecidableEq, Repr

/-- Go `os.IsNotExist(err)`. -/
def IsNotExist : Option GoError → Bool
  | some (GoError.os b _) => b
  | _ => false

/-- Go `getExistingPath`, with the calls it makes. -/
def getExistingPath (env : Env) (path : GoString) :
    List Event × Outcome (GoString × Option GoError) :=
  if IsAbs path then
    ([.stat path], .returned (path, env.Stat path))
  else
    match env.Getwd with
    | .error _ => ([.getwd], .panicked)
    | .ok pwd =>
      let existingPath := Join pwd path
      ([.getwd, .stat existingPath], .returned (existingPath, env.Stat existingPath))

/-- The process part of `AnalyzeMetadata` once the command is built. The
scanner loop ends at the end of the output or at a line `Scan` refuses; when
neither comes it never ends. `Wait` is then called, with output left unread in
the pipe when the loop ended at a refused line. -/
def runCmd (env : Env) (m : MediaFile) (name : GoString) (args : List GoString) :
    List Event × Outcome (MediaFile × Option GoError) :=
  match env.StdoutPipe name args with
  | some err => ([.stdoutPipe name args, .stderr], .returned (m, some err))
  | none =>
    match env.Start name args with
    | some err =>
      ([.stdoutPipe name args, .start name args, .stderr], .returned (m, some err))
    | none =>
      let lines := env.Output name args
      let refused := lines.any (fun line => (scanText line).isNone)
      if !refused && !env.OutputEnds name args then
        ([.stdoutPipe name args, .start name args], .blocked)
      else
        match env.Wait name args refused with
        | .never => ([.stdoutPipe name args, .start name args, .wait], .blocked)
        | .exited err =>
          ([.stdoutPipe name args, .start name args, .wait],
            .returned ({ m with Info := parseLines m.Info lines }, err))

/-- Go `(m *MediaFile) AnalyzeMetadata`: the record after the call and the
returned error. -/
def AnalyzeMetadata (env : Env) (m : MediaFile) (args : List GoString) :
    List Event × Outcome (MediaFile × Option GoError) :=
  let cmdArgs := if args.length > 0 then args ++ [m.Filename] else [m.Filename]
  match env.ExifTool with
  | none =>
    match env.LookPath with
    | none =>
      ([.lookPath], .returned (m, some (GoError.New "exiftool is not installed".toList)))
    | some cmdName =>
      let r := runCmd env m cmdName cmdArgs
      (.lookPath :: r.1, r.2)
  | some [] => ([], .panicked)
  | some (a0 :: as) => runCmd env m a0 (as ++ cmdArgs)

/-- Go `NewMediaFile`: `none` is the `nil` record. -/
def NewMediaFile (env : Env) (filename : GoString) (args : List GoString) :
    List Event × Outcome (Option MediaFile × Option GoError) :=
  match getExistingPath env filename with
  | (t, .panicked) => (t, .panicked)
  | (t, .blocked) => (t, .blocked)
  | (t, .returned (filename1, err)) =>
    if IsNotExist err then (t, .returned (none, err))
    else
      let mf : MediaFile := ⟨filename1, Info.empty⟩
      match AnalyzeMetadata env mf args with
      | (t1, .panicked) => (t ++ t1, .panicked)
      | (t1, .blocked) => (t ++ t1, .blocked)
      | (t1, .returned (mf1, err1)) => (t ++ t1, .returned (some mf1, err1))

/-! ## What the specification calls a line's key and value -/

/-- Follows the specification's words: the text of the first present field in
the priority order `Date/Time Original`, `Create Date`, `Modify Date`. -/
def dateField (m : Info) : Option GoString :=
  match m "Date/Time Original".toList with
  | some s => some s
  | none =>
    match m "Create Date".toList with
    | some s => some s
    | none => m "Modify Date".toList

/-- Follows the specification's words: the result of parsing a text against
the three formats in order, the first format that parses giving the time, and
the format error when none does. -/
def parseDateText (s : GoString) : Time × Option GoError :=
  match [layoutSeconds, layoutCentis, layoutMicrosZone].findSome?
      (fun l => timeParse l s) with
  | some t => (t, none)
  | none => (Time.zero, some (GoError.New ("Date has unexpected format: ".toList ++ s)))

/-- The error `GetDate` returns when no date field is present. -/
def errNoDate : GoError :=
  GoError.New "Couldn't find Date/Time Original or Create Date exif data".toList

/-- Follows the specification's words: the resolved form of a path, the path
itself when absolute and else the path resolved against the working directory
(`none` when the working directory cannot be had). -/
def resolvedPath (env : Env) (path : GoString) : Option GoString :=
  if IsAbs path then some path
  else
    match env.Getwd with
    | .ok pwd => some (Join pwd path)
    | .error _ => none

/-- A sample disk: the directories `/` and `/w` and the regular file
`/w/a.jpg`, by their clean absolute paths. -/
def sampleDisk : List GoString :=
  ["/".toList, "/w".toList, "/w/a.jpg".toList]

/-- A sample environment: the working directory is `/w`, the disk is
`sampleDisk`; `os.Stat` succeeds on the paths that clean to one on the disk,
reports `ENOTDIR` (20) for a path below the regular file and `ENOENT` (2) for
the others; `exiftool` is installed, prints four lines and exits. -/
def sampleEnv : Env where
  Getwd := .ok "/w".toList
  Stat := fun p =>
    if Clean p ∈ sampleDisk then none
    else if "/w/a.jpg/".toList.isPrefixOf (Clean p) then some (GoError.os false 20)
    else some (GoError.os true 2)
  ExifTool := none
  LookPath := some "/usr/bin/exiftool".toList
  StdoutPipe := fun _ _ => none
  Start := fun _ _ => none
  Output := fun _ _ =>
    ["ExifTool Version Number         : 12.40".toList,
     "Camera Model Name               : Canon EOS 5D".toList,
     "Modify Date                     : 2023:01:02 03:04:05".toList,
     "-- press any key --".toList]
  OutputEnds := fun _ _ => true
  Wait := fun _ _ _ => .exited none

/-! ## Lemmas on strings -/

theorem Info.set_other (m : Info) (k v k1 : GoString) (h : k1 ≠ k) :
    m.set k v k1 = m k1 := by
  simp [Info.set, h]

theorem lookup_some {m : Info} {k v : GoString} (h : m k = some v) :
    m.lookup k = (v, true) := by
  simp [Info.lookup, h]

theorem lookup_none {m : Info} {k : GoString} (h : m k = none) :
    m.lookup k = ([], false) := by
  simp [Info.lookup, h]

/-- C4: `Get` returns the stored value and no error for a key of the mapping,
also for an empty stored value, and an unknown-field error exactly for a name
that is no key; `GetLens` and `GetCamera` return the value of `Get` on
`Lens ID` and `Camera Model Name` and fail exactly when it does. -/
theorem Get_known_unknown :
    (∀ (m : MediaFile) (n v : GoString), m.Info n = some v → Get m n = (v, none))
    ∧ (∀ (m : MediaFile) (n : GoString), m.Info n = none →
        Get m n = ([], some (GoError.New ("Unknown tag ".toList ++ n))))
    ∧ (∀ (m : MediaFile) (n : GoString), (Get m n).2 ≠ none ↔ m.Info n = none)
    ∧ (∀ m : MediaFile, (GetLens m).1 = (Get m "Lens ID".toList).1
        ∧ ((GetLens m).2 = none ↔ (Get m "Lens ID".toList).2 = none)
        ∧ ((GetLens m).2 ≠ none →
            (GetLens m).2 = some (GoError.New "Unknown exiftool value : Lens ID".toList)))
    ∧ (∀ m : MediaFile, (GetCamera m).1 = (Get m "Camera Model Name".toList).1
        ∧ ((GetCamera m).2 = none ↔ (Get m "Camera Model Name".toList).2 = none)
        ∧ ((GetCamera m).2 ≠ none → (GetCamera m).2
            = some (GoError.New "Unknown exiftool value : Camera Model Name".toList)))
    ∧ Get ⟨[], Info.empty.set "Lens ID".toList []⟩ "Lens ID".toList = ([], none) := by
  refine ⟨?_, ?_, ?_, ?_, ?_, ?_⟩
  · intro m n v h
    simp [Get, lookup_some h]
  · intro m n h
    simp [Get, lookup_none h]
  · intro m n
    cases h : m.Info n with
    | none => simp [Get, lookup_none h]
    | some v => simp [Get, lookup_some h]
  · intro m
    cases h : m.Info "Lens ID".toList with
    | none => simp only [Get, GetLens, lookup_none h]; simp
    | some v => simp only [Get, GetLens, lookup_some h]; simp
  · intro m
    cases h : m.Info "Camera Model Name".toList with
    | none => simp only [Get, GetCamera, lookup_none h]; simp
    | some v => simp only [Get, GetCamera, lookup_some h]; simp
  · simp [Get, Info.lookup, Info.set]

theorem Get_known_unknown_witness :
    ((parseLines Info.empty ["Lens ID : EF 50mm".toList]) "Lens ID".toList
        = some "EF 50mm".toList
      ∧ Get ⟨[], parseLines Info.empty ["Lens ID : EF 50mm".toList]⟩ "Lens ID".toList
        = ("EF 50mm".toList, none))
    ∧ ((parseLines Info.empty ["Lens ID : EF 50mm".toList]) "ISO".toList = none
      ∧ Get ⟨[], parseLines Info.empty ["Lens ID : EF 50mm".toList]⟩ "ISO".toList
        = ([], some (GoError.New ("Unknown tag ".toList ++ "ISO".toList)))) :=
  ⟨⟨by decide, Get_known_unknown.1 ⟨[], _⟩ _ _ (by decide)⟩,
    ⟨by decide, Get_known_unknown.2.1 ⟨[], _⟩ _ (by decide)⟩⟩

/-- C8: `IsGeoTagged` is true exactly when `GPS Position` is a key of the
mapping, whatever value it holds (also the empty one the line `GPS Position :`
leaves), and false without that key whatever other GPS keys there are. -/
theorem IsGeoTagged_iff_key :
    (∀ m : MediaFile, IsGeoTagged m = true ↔ ∃ v, m.Info "GPS Position".toList = some v)
    ∧ (∀ m : MediaFile, IsGeoTagged m = false ↔ m.Info "GPS Position".toList = none)
    ∧ (∀ (m : MediaFile) (v : GoString),
        IsGeoTagged { m with Info := m.Info.set "GPS Position".toList v } = true)
    ∧ (processLine Info.empty "GPS Position :".toList) "GPS Position".toList = some []
    ∧ IsGeoTagged ⟨[], processLine Info.empty "GPS Position :".toList⟩ = true
    ∧ IsGeoTagged ⟨[], parseLines Info.empty
        ["GPS Latitude : 48.85 N".toList, "GPS Altitude : 35 m".toList]⟩
        = false := by
  refine ⟨?_, ?_, ?_, ?_, ?_, ?_⟩
  · intro m
    cases h : m.Info "GPS Position".toList with
    | none => simp only [IsGeoTagged, lookup_none h]; simp
    | some v => simp only [IsGeoTagged, lookup_some h]; simp
  · intro m
    cases h : m.Info "GPS Position".toList with
    | none => simp only [IsGeoTagged, lookup_none h]
    | some v => simp only [IsGeoTagged, lookup_some h]; simp
  · intro m v
    simp [IsGeoTagged, Info.lookup, Info.set]
  · decide
  · decide
  · decide

/-! ## The capture date -/

/-- `GetDate` in closed form: the selected field, then the cascade. -/
theorem GetDate_eq (m : MediaFile) :
    GetDate m = match dateField m.Info with
      | some s => parseDateText s
      | none => (Time.zero, some errNoDate) := by
  cases h1 : m.Info "Date/Time Original".toList with
  | some s =>
    simp only [GetDate, dateField, lookup_some h1, h1, parseDateText, List.findSome?]
    cases ha : timeParse layoutSeconds s <;> cases hb : timeParse layoutCentis s <;>
      cases hc : timeParse layoutMicrosZone s <;> simp [ha, hb, hc]
  | none =>
    cases h2 : m.Info "Create Date".toList with
    | some s =>
      simp only [GetDate, dateField, lookup_none h1, lookup_some h2, h1, h2, parseDateText,
        List.findSome?]
      cases ha : timeParse layoutSeconds s <;> cases hb : timeParse layoutCentis s <;>
        cases hc : timeParse layoutMicrosZone s <;> simp [ha, hb, hc]
    | none =>
      cases h3 : m.Info "Modify Date".toList with
      | some s =>
        simp only [GetDate, dateField, lookup_none h1, lookup_none h2, lookup_some h3, h1, h2,
          h3, parseDateText, List.findSome?]
        cases ha : timeParse layoutSeconds s <;> cases hb : timeParse layoutCentis s <;>
          cases hc : timeParse layoutMicrosZone s <;> simp [ha, hb, hc]
      | none =>
        simp only [GetDate, dateField, lookup_none h1, lookup_none h2, lookup_none h3, h1, h2,
          h3, errNoDate]
        simp

theorem dateField_original {m : Info} {s : GoString}
    (h : m "Date/Time Original".toList = some s) : dateField m = some s := by
  simp only [dateField, h]

theorem dateField_create {m : Info} {s : GoString}
    (h1 : m "Date/Time Original".toList = none) (h2 : m "Create Date".toList = some s) :
    dateField m = some s := by
  simp only [dateField, h1, h2]

theorem dateField_modify {m : Info}
    (h1 : m "Date/Time Original".toList = none) (h2 : m "Create Date".toList = none) :
    dateField m = m "Modify Date".toList := by
  simp only [dateField, h1, h2]

theorem GetDate_of_dateField {m : MediaFile} {s : GoString}
    (h : dateField m.Info = some s) : GetDate m = parseDateText s := by
  rw [GetDate_eq, h]

theorem parseDateText_error (s : GoString) :
    (parseDateText s).2 = none
      ∨ (parseDateText s).2
        = some (GoError.New ("Date has unexpected format: ".toList ++ s)) := by
  unfold parseDateText
  split
  · exact Or.inl rfl
  · exact Or.inr rfl

theorem parseDateText_ne_errNoDate (s : GoString) :
    (parseDateText s).2 ≠ some errNoDate := by
  rcases parseDateText_error s with h | h
  · rw [h]; simp
  · rw [h]; simp [errNoDate]

/-- C5: `GetDate` parses the text of the first present key in the order
`Date/Time Original`, `Create Date`, `Modify Date`, whatever the keys of lower
priority hold; so `Date/Time Original` is used when `Modify Date` is present
too, and an unparseable text there (also the empty one) makes `GetDate` fail
even when a lower key holds a parseable timestamp. -/
theorem GetDate_priority :
    (∀ (m : MediaFile) (s : GoString), m.Info "Date/Time Original".toList = some s →
      GetDate m = parseDateText s)
    ∧ (∀ (m : MediaFile) (s : GoString), m.Info "Date/Time Original".toList = none →
        m.Info "Create Date".toList = some s → GetDate m = parseDateText s)
    ∧ (∀ (m : MediaFile) (s : GoString), m.Info "Date/Time Original".toList = none →
        m.Info "Create Date".toList = none → m.Info "Modify Date".toList = some s →
        GetDate m = parseDateText s)
    ∧ (∀ (m : MediaFile) (s v w : GoString), m.Info "Date/Time Original".toList = some s →
        GetDate { m with Info := (m.Info.set "Create Date".toList v).set "Modify Date".toList w }
          = GetDate m)
    ∧ (∀ (m : MediaFile) (s w : GoString), m.Info "Date/Time Original".toList = none →
        m.Info "Create Date".toList = some s →
        GetDate { m with Info := m.Info.set "Modify Date".toList w } = GetDate m)
    ∧ GetDate ⟨[], (Info.empty.set "Modify Date".toList "2023:01:02 03:04:05".toList).set
          "Date/Time Original".toList "2020:05:06 07:08:09".toList⟩
        = (⟨2020, 5, 6, 7, 8, 9, 0, 0⟩, none)
    ∧ GetDate ⟨[], (Info.empty.set "Modify Date".toList "2023:01:02 03:04:05".toList).set
          "Date/Time Original".toList []⟩
        = (Time.zero, some (GoError.New "Date has unexpected format: ".toList))
    ∧ GetDate ⟨[], (Info.empty.set "Modify Date".toList "2023:01:02 03:04:05".toList).set
          "Create Date".toList "yesterday".toList⟩
        = (Time.zero, some (GoError.New "Date has unexpected format: yesterday".toList)) := by
  refine ⟨?_, ?_, ?_, ?_, ?_, ?_, ?_, ?_⟩
  · intro m s h
    rw [GetDate_eq, dateField_original h]
  · intro m s h1 h2
    rw [GetDate_eq, dateField_create h1 h2]
  · intro m s h1 h2 h3
    rw [GetDate_eq, dateField_modify h1 h2, h3]
  · intro m s v w h
    have h1 : ((m.Info.set "Create Date".toList v).set "Modify Date".toList w)
        "Date/Time Original".toList = some s := by
      rw [Info.set_other _ _ _ _ (by decide), Info.set_other _ _ _ _ (by decide)]
      exact h
    rw [GetDate_of_dateField (dateField_original h)]
    exact GetDate_of_dateField (m := ⟨m.Filename, _⟩) (dateField_original h1)
  · intro m s w h1 h2
    have h3 : (m.Info.set "Modify Date".toList w) "Date/Time Original".toList = none := by
      rw [Info.set_other _ _ _ _ (by decide)]
      exact h1
    have h4 : (m.Info.set "Modify Date".toList w) "Create Date".toList = some s := by
      rw [Info.set_other _ _ _ _ (by decide)]
      exact h2
    rw [GetDate_of_dateField (dateField_create h1 h2)]
    exact GetDate_of_dateField (m := ⟨m.Filename, _⟩) (dateField_create h3 h4)
  · decide
  · decide
  · decide

theorem GetDate_priority_witness :
    ((Info.empty.set "Modify Date".toList "2023:01:02 03:04:05".toList).set
          "Date/Time Original".toList "2020:05:06 07:08:09".toList)
        "Date/Time Original".toList = some "2020:05:06 07:08:09".toList
      ∧ GetDate ⟨[], (Info.empty.set "Modify Date".toList "2023:01:02 03:04:05".toList).set
          "Date/Time Original".toList "2020:05:06 07:08:09".toList⟩
        = parseDateText "2020:05:06 07:08:09".toList :=
  ⟨by decide, GetDate_priority.1 ⟨[], _⟩ _ (by decide)⟩

/-- C6: `GetDate` returns the no-timestamp-field error exactly when none of
`Date/Time Original`, `Create Date`, `Modify Date` is a key; when one of them
is, it either succeeds or returns the unexpected-format error on the text of
the selected field. -/
theorem GetDate_errors (m : MediaFile) :
    ((GetDate m).2 = some errNoDate ↔
      (m.Info "Date/Time Original".toList = none ∧ m.Info "Create Date".toList = none
        ∧ m.Info "Modify Date".toList = none))
    ∧ (∀ s, dateField m.Info = some s →
        (GetDate m).2 = none
          ∨ (GetDate m).2
            = some (GoError.New ("Date has unexpected format: ".toList ++ s)))
    ∧ (dateField m.Info = none ↔
        (m.Info "Date/Time Original".toList = none ∧ m.Info "Create Date".toList = none
          ∧ m.Info "Modify Date".toList = none)) := by
  have key : dateField m.Info = none ↔
      (m.Info "Date/Time Original".toList = none ∧ m.Info "Create Date".toList = none
        ∧ m.Info "Modify Date".toList = none) := by
    cases h1 : m.Info "Date/Time Original".toList with
    | some s => simp only [dateField, h1]; simp
    | none =>
      cases h2 : m.Info "Create Date".toList with
      | some s => simp only [dateField, h1, h2]; simp
      | none => simp only [dateField, h1, h2]; simp
  refine ⟨?_, ?_, key⟩
  · rw [← key, GetDate_eq]
    cases h : dateField m.Info with
    | none => simp
    | some s =>
      simp only []
      constructor
      · intro h1
        exact absurd h1 (parseDateText_ne_errNoDate s)
      · intro h1
        exact absurd h1 (by simp)
  · intro s h
    rw [GetDate_eq, h]
    exact parseDateText_error s

theorem GetDate_errors_witness :
    dateField (Info.empty.set "Create Date".toList "soon".toList) = some "soon".toList
      ∧ ((GetDate ⟨[], Info.empty.set "Create Date".toList "soon".toList⟩).2 = none
        ∨ (GetDate ⟨[], Info.empty.set "Create Date".toList "soon".toList⟩).2
          = some (GoError.New ("Date has unexpected format: ".toList ++ "soon".toList))) :=
  ⟨by decide, (GetDate_errors ⟨[], _⟩).2.1 _ (by decide)⟩

/-- C7, counterexample: on `2023:01:02 03:04:05.50` the whole-seconds layout
does not fail: `time.Parse` reads the fractional second that follows the
seconds field although the layout has none. -/
theorem plain_layout_accepts_fraction :
    ¬ (timeParse layoutSeconds "2023:01:02 03:04:05.50".toList = none)
      ∧ timeParse layoutSeconds "2023:01:02 03:04:05.50".toList
        = some ⟨2023, 1, 2, 3, 4, 5, 500000000, 0⟩ := by
  decide

/-- C7, amended: `GetDate` tries the three layouts in order on the selected
text and returns the time of the first that parses, succeeding exactly when
one of them accepts it. `Modify Date` = `2023:01:02 03:04:05` alone gives
2023-01-02T03:04:05; `2023:01:02 03:04:05.50` is accepted by the whole-seconds
layout already and gives 2023-01-02T03:04:05.5; `2023:01:02
03:04:05.123456+02:00` is rejected by the first two layouts and parses by the
third. -/
theorem GetDate_format_cascade :
    (∀ (m : MediaFile) (s : GoString), dateField m.Info = some s →
      (∀ t, timeParse layoutSeconds s = some t → GetDate m = (t, none))
      ∧ (∀ t, timeParse layoutSeconds s = none → timeParse layoutCentis s = some t →
          GetDate m = (t, none))
      ∧ (∀ t, timeParse layoutSeconds s = none → timeParse layoutCentis s = none →
          timeParse layoutMicrosZone s = some t → GetDate m = (t, none))
      ∧ ((GetDate m).2 = none ↔
          (timeParse layoutSeconds s ≠ none ∨ timeParse layoutCentis s ≠ none
            ∨ timeParse layoutMicrosZone s ≠ none)))
    ∧ GetDate ⟨[], Info.empty.set "Modify Date".toList "2023:01:02 03:04:05".toList⟩
        = (⟨2023, 1, 2, 3, 4, 5, 0, 0⟩, none)
    ∧ (timeParse layoutSeconds "2023:01:02 03:04:05.50".toList
          = some ⟨2023, 1, 2, 3, 4, 5, 500000000, 0⟩
        ∧ GetDate ⟨[], Info.empty.set "Modify Date".toList "2023:01:02 03:04:05.50".toList⟩
          = (⟨2023, 1, 2, 3, 4, 5, 500000000, 0⟩, none))
    ∧ (timeParse layoutSeconds "2023:01:02 03:04:05.123456+02:00".toList = none
        ∧ timeParse layoutCentis "2023:01:02 03:04:05.123456+02:00".toList = none
        ∧ GetDate ⟨[], Info.empty.set "Modify Date".toList
            "2023:01:02 03:04:05.123456+02:00".toList⟩
          = (⟨2023, 1, 2, 3, 4, 5, 123456000, 7200⟩, none)) := by
  refine ⟨?_, ?_, ?_, ?_⟩
  · intro m s h
    rw [GetDate_of_dateField h]
    refine ⟨?_, ?_, ?_, ?_⟩
    · intro t h1
      simp [parseDateText, List.findSome?, h1]
    · intro t h1 h2
      simp [parseDateText, List.findSome?, h1, h2]
    · intro t h1 h2 h3
      simp [parseDateText, List.findSome?, h1, h2, h3]
    · cases h1 : timeParse layoutSeconds s <;> cases h2 : timeParse layoutCentis s <;>
        cases h3 : timeParse layoutMicrosZone s <;>
        simp [parseDateText, List.findSome?, h1, h2, h3]
  · decide
  · exact ⟨by decide, by decide⟩
  · exact ⟨by decide, by decide, by decide⟩

theorem GetDate_format_cascade_witness :
    dateField (Info.empty.set "Create Date".toList "2024:02:29 23:59:59".toList)
        = some "2024:02:29 23:59:59".toList
      ∧ timeParse layoutSeconds "2024:02:29 23:59:59".toList
        = some ⟨2024, 2, 29, 23, 59, 59, 0, 0⟩
      ∧ GetDate ⟨[], Info.empty.set "Create Date".toList "2024:02:29 23:59:59".toList⟩
        = (⟨2024, 2, 29, 23, 59, 59, 0, 0⟩, none) :=
  ⟨by decide, by decide,
    (GetDate_format_cascade.1
      ⟨[], Info.empty.set "Create Date".toList "2024:02:29 23:59:59".toList⟩
      "2024:02:29 23:59:59".toList (by decide)).1 _ (by decide)⟩

/-! ## Construction and path resolution -/

/-- The loop of `Clean` ends within as many iterations as the path has bytes. -/
theorem cleanLoop_ne_none (rooted : Bool) (fuel : Nat) :
    ∀ (path out : GoString) (dotdot : Nat), path.length ≤ fuel →
      cleanLoop rooted fuel path out dotdot ≠ none := by
  induction fuel with
  | zero =>
    intro path out dotdot h
    have : path = [] := List.length_eq_zero.1 (Nat.le_zero.1 h)
    subst this
    simp [cleanLoop]
  | succ n ih =>
    intro path out dotdot h
    cases path with
    | nil => simp [cleanLoop]
    | cons c rest =>
      have h1 : rest.length ≤ n := by simpa using h
      have h2 : (rest.drop 1).length ≤ n := by
        rw [List.length_drop]; omega
      have h3 : (rest.dropWhile (· ≠ '/')).length ≤ n :=
        le_trans (List.dropWhile_sublist _).length_le h1
      unfold cleanLoop
      split_ifs
      all_goals first
        | exact ih _ _ _ h1
        | exact ih _ _ _ h2
        | exact ih _ _ _ h3

/-- The literal-skipping of `time.Parse` does not depend on the fuel once it
exceeds the length of the literal. -/
theorem skip_fuel (fuel : Nat) :
    ∀ (fuel1 : Nat) (value lit : GoString), lit.length < fuel → lit.length < fuel1 →
      skip fuel value lit = skip fuel1 value lit := by
  induction fuel with
  | zero => intro fuel1 value lit h; omega
  | succ n ih =>
    intro fuel1 value lit h h1
    cases lit with
    | nil => cases fuel1 <;> simp [skip]
    | cons p ps =>
      cases fuel1 with
      | zero => omega
      | succ k =>
        have hcut : p = ' ' → (cutspace (p :: ps)).length ≤ ps.length := by
          intro e
          subst e
          simpa [cutspace] using (List.dropWhile_sublist (fun c => decide (c = ' '))
            (l := ps)).length_le
        have hps : ps.length < n ∧ ps.length < k := by
          simp only [List.length_cons] at h h1
          omega
        unfold skip
        by_cases e : p = ' '
        · have hc := hcut e
          simp only [e, if_true]
          cases value with
          | nil => exact ih _ _ _ (by rw [← e]; omega) (by rw [← e]; omega)
          | cons v vs =>
            by_cases e1 : v ≠ ' '
            · simp only [if_pos e1]
            · simp only [if_neg e1]
              exact ih _ _ _ (by rw [← e]; omega) (by rw [← e]; omega)
        · simp only [if_neg e]
          cases value with
          | nil => rfl
          | cons v vs =>
            by_cases e1 : v ≠ p
            · simp only [if_pos e1]
            · simp only [if_neg e1]
              exact ih _ _ _ hps.1 hps.2

/-- C9, counterexample: `/w/a.jpg/x`, a path below the regular file
`/w/a.jpg`, is not on the disk and `os.Stat` fails on it, with `ENOTDIR`, an
error `os.IsNotExist` does not hold for; `NewMediaFile` looks the tool up,
starts it on that path, and returns a record. -/
theorem NewMediaFile_below_regular_file :
    Clean "/w/a.jpg/x".toList ∉ sampleDisk
      ∧ resolvedPath sampleEnv "/w/a.jpg/x".toList = some "/w/a.jpg/x".toList
      ∧ sampleEnv.Stat "/w/a.jpg/x".toList = some (GoError.os false 20)
      ∧ (∃ mf err, (NewMediaFile sampleEnv "/w/a.jpg/x".toList []).2
          = .returned (some mf, err) ∧ mf.Filename = "/w/a.jpg/x".toList)
      ∧ Event.lookPath ∈ (NewMediaFile sampleEnv "/w/a.jpg/x".toList []).1
      ∧ Event.start "/usr/bin/exiftool".toList ["/w/a.jpg/x".toList]
          ∈ (NewMediaFile sampleEnv "/w/a.jpg/x".toList []).1 :=
  ⟨by decide, by decide, by decide, ⟨_, _, rfl, rfl⟩, by decide, by decide⟩

/-- C9, amended: when `os.Stat` fails on the resolved form of the path with an
error for which `os.IsNotExist` holds, `NewMediaFile` returns the `nil` record
with that error, and the only calls it has made are those of the path
resolution: no tool lookup, no process. -/
theorem NewMediaFile_path_not_found (env : Env) (filename : GoString)
    (args : List GoString) (p : GoString) (err : GoError)
    (hres : resolvedPath env filename = some p) (hstat : env.Stat p = some err)
    (hne : IsNotExist (some err) = true) :
    (NewMediaFile env filename args).2 = .returned (none, some err)
      ∧ (∀ e ∈ (NewMediaFile env filename args).1, e = Event.getwd ∨ e = Event.stat p)
      ∧ Event.lookPath ∉ (NewMediaFile env filename args).1
      ∧ (∀ name a, Event.stdoutPipe name a ∉ (NewMediaFile env filename args).1
          ∧ Event.start name a ∉ (NewMediaFile env filename args).1) := by
  have hrun : NewMediaFile env filename args
      = ((getExistingPath env filename).1, .returned (none, some err))
      ∧ ∀ e ∈ (getExistingPath env filename).1, e = Event.getwd ∨ e = Event.stat p := by
    unfold resolvedPath at hres
    by_cases ha : IsAbs filename = true
    · rw [if_pos ha] at hres
      have e : p = filename := (Option.some.inj hres).symm
      subst e
      simp [NewMediaFile, getExistingPath, ha, hstat, hne]
    · rw [if_neg ha] at hres
      cases hw : env.Getwd with
      | error x => rw [hw] at hres; cases hres
      | ok pwd =>
        rw [hw] at hres
        have e : p = Join pwd filename := (Option.some.inj hres).symm
        subst e
        simp [NewMediaFile, getExistingPath, ha, hw, hstat, hne]
  rw [hrun.1]
  refine ⟨rfl, hrun.2, ?_, ?_⟩
  · intro h
    rcases hrun.2 _ h with e | e <;> cases e
  · intro name a
    constructor
    · intro h
      rcases hrun.2 _ h with e | e <;> cases e
    · intro h
      rcases hrun.2 _ h with e | e <;> cases e

theorem NewMediaFile_path_not_found_witness :
    (resolvedPath sampleEnv "b.jpg".toList = some "/w/b.jpg".toList
      ∧ sampleEnv.Stat "/w/b.jpg".toList = some (GoError.os true 2)
      ∧ IsNotExist (some (GoError.os true 2)) = true)
    ∧ (NewMediaFile sampleEnv "b.jpg".toList []).2
        = .returned (none, some (GoError.os true 2))
    ∧ (NewMediaFile sampleEnv "b.jpg".toList []).1
        = [Event.getwd, Event.stat "/w/b.jpg".toList] :=
  ⟨⟨by decide, by decide, by decide⟩,
    (NewMediaFile_path_not_found sampleEnv "b.jpg".toList [] "/w/b.jpg".toList
      (GoError.os true 2) (by decide) (by decide) (by decide)).1,
    by decide⟩

/-- C10, counterexample: with working directory `/w` and the file `/w/a.jpg`
on disk, the relative path `./a.jpg` resolves to `/w/a.jpg` while its
already-absolute form `/w/./a.jpg` is returned as it is. -/
theorem getExistingPath_relative_differs :
    sampleEnv.Getwd = .ok "/w".toList
      ∧ IsAbs "./a.jpg".toList = false
      ∧ IsAbs ("/w".toList ++ '/' :: "./a.jpg".toList) = true
      ∧ (getExistingPath sampleEnv "./a.jpg".toList).2
        = .returned ("/w/a.jpg".toList, none)
      ∧ (getExistingPath sampleEnv ("/w".toList ++ '/' :: "./a.jpg".toList)).2
        = .returned ("/w/./a.jpg".toList, none)
      ∧ (getExistingPath sampleEnv "./a.jpg".toList).2
        ≠ (getExistingPath sampleEnv ("/w".toList ++ '/' :: "./a.jpg".toList)).2 :=
  ⟨rfl, by decide, by decide, by decide, by decide, by decide⟩

/-- C10, amended: an absolute input is returned unchanged; a relative input
`R` is returned as `filepath.Join(W, R)`, the cleaned form of `W/R`, so the
result for `R` is the cleaned form of the result for `W/R`, and the two are
the same string (with the same `os.Stat` answer) when `W/R` is already
clean. `Clean` always ends. -/
theorem getExistingPath_resolution :
    (∀ (env : Env) (A : GoString), IsAbs A = true →
      (getExistingPath env A).2 = .returned (A, env.Stat A))
    ∧ (∀ (env : Env) (W R : GoString), env.Getwd = .ok W → IsAbs R = false →
        (getExistingPath env R).2 = .returned (Join W R, env.Stat (Join W R)))
    ∧ (∀ W R : GoString, IsAbs W = true → Join W R = Clean (W ++ '/' :: R))
    ∧ (∀ (env : Env) (W R : GoString), env.Getwd = .ok W → IsAbs W = true →
        IsAbs R = false →
        IsAbs (W ++ '/' :: R) = true
          ∧ (getExistingPath env (W ++ '/' :: R)).2
            = .returned (W ++ '/' :: R, env.Stat (W ++ '/' :: R))
          ∧ (getExistingPath env R).2
            = .returned (Clean (W ++ '/' :: R), env.Stat (Clean (W ++ '/' :: R)))
          ∧ (Clean (W ++ '/' :: R) = W ++ '/' :: R →
              (getExistingPath env R).2 = (getExistingPath env (W ++ '/' :: R)).2))
    ∧ (∀ (rooted : Bool) (path out : GoString) (dotdot : Nat),
        cleanLoop rooted path.length path out dotdot ≠ none) := by
  have habs : ∀ (env : Env) (A : GoString), IsAbs A = true →
      (getExistingPath env A).2 = .returned (A, env.Stat A) := by
    intro env A h
    simp [getExistingPath, h]
  have hrel : ∀ (env : Env) (W R : GoString), env.Getwd = .ok W → IsAbs R = false →
      (getExistingPath env R).2 = .returned (Join W R, env.Stat (Join W R)) := by
    intro env W R hw h
    simp [getExistingPath, h, hw]
  have hjoin : ∀ W R : GoString, IsAbs W = true → Join W R = Clean (W ++ '/' :: R) := by
    intro W R h
    have hne : W ≠ [] := by
      intro e
      subst e
      simp [IsAbs] at h
    simp [Join, hne]
  have hWR : ∀ W R : GoString, IsAbs W = true → IsAbs (W ++ '/' :: R) = true := by
    intro W R h
    cases W with
    | nil => simp [IsAbs] at h
    | cons c cs => simpa [IsAbs] using h
  refine ⟨habs, hrel, hjoin, ?_, ?_⟩
  · intro env W R hw hW hR
    refine ⟨hWR W R hW, habs env _ (hWR W R hW), ?_, ?_⟩
    · rw [hrel env W R hw hR, hjoin W R hW]
    · intro hc
      rw [hrel env W R hw hR, hjoin W R hW, habs env _ (hWR W R hW), hc]
  · intro rooted path out dotdot
    exact cleanLoop_ne_none rooted _ _ _ _ (le_refl _)

theorem getExistingPath_resolution_witness :
    (sampleEnv.Getwd = .ok "/w".toList ∧ IsAbs "/w".toList = true
      ∧ IsAbs "a.jpg".toList = false
      ∧ Clean ("/w".toList ++ '/' :: "a.jpg".toList) = "/w".toList ++ '/' :: "a.jpg".toList)
    ∧ (getExistingPath sampleEnv "a.jpg".toList).2
        = (getExistingPath sampleEnv ("/w".toList ++ '/' :: "a.jpg".toList)).2
    ∧ (getExistingPath sampleEnv "a.jpg".toList).2
        = .returned ("/w/a.jpg".toList, none) :=
  ⟨⟨rfl, by decide, by decide, by decide⟩,
    (getExistingPath_resolution.2.2.2.1 sampleEnv "/w".toList "a.jpg".toList
      rfl (by decide) (by decide)).2.2.2 (by decide),
    by decide⟩

end Goexiftool
